import Mathlib

/-!
Verification development for the pys5p repository.

The repository consists of HDF5 accessor classes (`icm_io.py`, `lv2_io.py`)
and plotting helpers (`s5p_plot.py`), together with a robust (biweight)
location/spread estimator (`pys5p.biweight`, specified in the design
document but whose module file is not shipped here).

Floating-point doubles are modelled as exact rationals; IEEE NaN is modelled
by `Option`: `none` is NaN, `some q` a finite value.  Python exceptions are
modelled with `Except`; Python `None` results with `Option`.
-/

section Pys5pModel

attribute [local semireducible] Rat.mul Rat.add Rat.sub Rat.inv

/-- A floating-point value: `none` models IEEE NaN, `some q` a finite double. -/
abbrev QN := Option ℚ

/-- The finite (non-NaN) values of an array, in order: models
`arr[np.isfinite(arr)]` and the NaN-exclusion performed by `nanmedian`
and by the biweight estimator. -/
def finiteVals : List QN → List ℚ
  | [] => []
  | none :: xs => finiteVals xs
  | some q :: xs => q :: finiteVals xs

/-- IEEE subtraction with NaN propagation: `x - y` is NaN when either side is. -/
def qnSub (x y : QN) : QN :=
  match x, y with
  | some a, some b => some (a - b)
  | _, _ => none

/-- Absolute value on the rational model. -/
def qabs (q : ℚ) : ℚ := if q < 0 then -q else q

/-- Clip a value to the interval [-1, 1] (`np.clip(u, -1, 1)`). -/
def qclip (q : ℚ) : ℚ := if q < -1 then -1 else if q > 1 then 1 else q

/-- Squaring, kept as plain multiplication so concrete inputs evaluate. -/
def qsq (q : ℚ) : ℚ := q * q

/-- Binary maximum on the rational model. -/
def qmax (a b : ℚ) : ℚ := if a ≤ b then b else a

/-- Insert a value into a sorted list, keeping it sorted. -/
def insertSorted (x : ℚ) : List ℚ → List ℚ
  | [] => [x]
  | y :: ys => if x ≤ y then x :: y :: ys else y :: insertSorted x ys

/-- Sorting as used by the median: insertion sort of the sample. -/
def isort (xs : List ℚ) : List ℚ := xs.foldr insertSorted []

/-- The ordinary median of a finite sample (`np.median` semantics: the middle
value of the sorted data for odd length, the mean of the two middle values for
even length).  The median of an empty sample is NaN. -/
def med (xs : List ℚ) : QN :=
  if (isort xs).length = 0 then none
  else if (isort xs).length % 2 = 1 then
    some ((isort xs).getD ((isort xs).length / 2) 0)
  else
    some (((isort xs).getD ((isort xs).length / 2 - 1) 0 +
           (isort xs).getD ((isort xs).length / 2) 0) / 2)

/-- Modelled from the spec: the core of `pys5p.biweight.biweight` (module file
absent from the sources; design document section 4.1) applied to one sample,
with tuning constant `c` and numerical floor `eps`.  Steps: drop NaN values;
`M0` is the ordinary median (NaN when no finite value remains); deviations
`d_i = x_i - M0`; `MAD = median |d_i|`; when `MAD = 0` or fewer than two
finite values remain, fall back to location `M0` and spread `0`; otherwise
weights `u_i = d_i / (c*MAD + eps)` clipped to [-1,1] (clipped points get zero
weight), location `M0 + sum(d_i (1-u_i^2)^2) / sum((1-u_i^2)^2)`, and spread
`sqrt(n * sum(d_i^2 (1-u_i^2)^4)) / |sum((1-u_i^2)(1-5 u_i^2))|` where `n`
counts the finite values.  The second component returned here is the square
of that spread, which stays rational; since `Real.sqrt` is a function, any
equality of spreads is equivalent to equality of these squares. -/
def biweightPair (c eps : ℚ) (xs : List QN) : QN × QN :=
  let fs := finiteVals xs
  match med fs with
  | none => (none, none)
  | some m0 =>
    let ds := fs.map (fun x => x - m0)
    let mad := (med (ds.map qabs)).getD 0
    if mad = 0 ∨ fs.length < 2 then (some m0, some 0)
    else
      let us := ds.map (fun d => qclip (d / (c * mad + eps)))
      let pairs := ds.zip us
      let wsum := (us.map (fun u => qsq (1 - qsq u))).foldr (· + ·) 0
      let dwsum := (pairs.map (fun p => p.1 * qsq (1 - qsq p.2))).foldr (· + ·) 0
      let n : ℚ := fs.length
      let snum := n * (pairs.map (fun p => qsq p.1 * qsq (qsq (1 - qsq p.2)))).foldr (· + ·) 0
      let sden := (us.map (fun u => (1 - qsq u) * (1 - 5 * qsq u))).foldr (· + ·) 0
      (some (m0 + dwsum / wsum), some (snum / qsq sden))

/-- Modelled from the spec: `pys5p.biweight.biweight` on a 1-D sample with
`spread=True`.  An empty sample (before NaN exclusion) fails with an
invalid-input error; any non-empty sample yields a (location, spread²) pair. -/
def biweight (c eps : ℚ) (xs : List QN) : Except String (QN × QN) :=
  if xs = [] then .error ("invalid input: empty sample") else .ok (biweightPair c eps xs)

/-- The conventional default tuning constant `c = 6.0`. -/
def cDefault : ℚ := 6

/-- The conventional default numerical floor `epsilon = 1e-20`. -/
def epsDefault : ℚ := 1 / 100000000000000000000

/-- Transpose of a list-of-rows matrix: row `j` of the result is column `j`
of the input.  Used to express reductions along axis 0. -/
def tcols : List (List α) → List (List α)
  | [] => []
  | [r] => r.map (fun x => [x])
  | r :: r2 :: rs => List.zipWith List.cons r (tcols (r2 :: rs))

/-- Column `j` of a list-of-rows matrix (defaulting to NaN out of range). -/
def colAt (a : List (List QN)) (j : ℕ) : List QN := a.map (fun r => r.getD j none)

/-- Modelled from the spec: the biweight estimator applied along axis 0 of a
2-D array: one (location, spread²) pair per column. -/
def biweightAxis0 (c eps : ℚ) (a : List (List QN)) : List (QN × QN) :=
  (tcols a).map (biweightPair c eps)

/-- `np.nanmedian` of one row: median of its finite values, NaN when none. -/
def nanmedianRow (r : List QN) : QN := med (finiteVals r)

/-- Shallow embedding of the `data_col` default of `S5Pplot.draw_signal`
(s5p_plot.py): `if data_col is None: data_col = np.nanmedian(data, axis=1)`. -/
def draw_signal_data_col (data : List (List QN)) (data_col : Option (List QN)) : List QN :=
  match data_col with
  | some c => c
  | none => data.map nanmedianRow

/-- Shallow embedding of the `data_row` default of `S5Pplot.draw_signal`
(s5p_plot.py): `if data_row is None: data_row = np.nanmedian(data, axis=0)`. -/
def draw_signal_data_row (data : List (List QN)) (data_row : Option (List QN)) : List QN :=
  match data_row with
  | some r => r
  | none => (tcols data).map nanmedianRow

/-- Modelled from the spec: the column profile that the `draw_signal`
docstring promises for a missing `data_col`, namely `biweight(data, axis=1)`
(the per-row biweight location, spread not requested). -/
def draw_signal_doc_data_col (data : List (List QN)) : List QN :=
  data.map (fun r => (biweightPair cDefault epsDefault r).1)

/-- Modelled from the spec: the row profile that the `draw_signal` docstring
promises for a missing `data_row`, namely `biweight(data, axis=0)`. -/
def draw_signal_doc_data_row (data : List (List QN)) : List QN :=
  (tcols data).map (fun r => (biweightPair cDefault epsDefault r).1)

/-! ### `S5Pplot.__hist` (s5p_plot.py): histogram centering -/

/-- The figure-info dictionary of `S5Pplot.__hist`, restricted to the keys the
method reads or writes.  A field value `none` models an absent key; a present
key holds a floating-point value (itself possibly NaN). -/
structure FigInfo where
  num_sigma : Option ℚ
  sign_median : Option QN
  sign_spread : Option QN
  error_median : Option QN
  error_spread : Option QN
deriving DecidableEq

/-- The dictionary `OrderedDict({'num_sigma' : 3})` substituted by `__hist`
when the caller passes `fig_info=None`. -/
def figInfoDefault : FigInfo :=
  { num_sigma := some 3, sign_median := none, sign_spread := none,
    error_median := none, error_spread := none }

/-- Shallow embedding of the data preparation of `S5Pplot.__hist`
(s5p_plot.py lines 210-227): substitute the default dictionary for `None`;
keep the finite values of the signal; when `sign_median` or `sign_spread` is
missing, call `biweight(signal, spread=True)` and store the pair; shift the
signal by the stored `sign_median`; then the same for the error array with
`error_median`/`error_spread`.  The rendering that follows is not modelled. -/
def hist_prep (signal_in error_in : List QN) (fig_info : Option FigInfo) :
    Except String (FigInfo × List QN × List QN) :=
  let fi0 := fig_info.getD figInfoDefault
  let signal := finiteVals signal_in
  match (if fi0.sign_median = none ∨ fi0.sign_spread = none then
      match biweight cDefault epsDefault (signal.map some) with
      | .error m => .error m
      | .ok p => .ok { fi0 with sign_median := some p.1, sign_spread := some p.2 }
    else .ok fi0 : Except String FigInfo) with
  | .error m => .error m
  | .ok fi1 =>
    let signalShifted := signal.map (fun x => qnSub (some x) (fi1.sign_median.getD none))
    let error := finiteVals error_in
    match (if fi1.error_median = none ∨ fi1.error_spread = none then
        match biweight cDefault epsDefault (error.map some) with
        | .error m => .error m
        | .ok p => .ok { fi1 with error_median := some p.1, error_spread := some p.2 }
      else .ok fi1 : Except String FigInfo) with
    | .error m => .error m
    | .ok fi2 =>
      .ok (fi2, signalShifted,
        error.map (fun x => qnSub (some x) (fi2.error_median.getD none)))

/-! ### `S5Pplot.__frame` (s5p_plot.py): percentile clipping and rescaling -/

/-- Floor of a rational number, computed with flooring integer division. -/
def qfloorZ (q : ℚ) : ℤ := Int.fdiv q.num q.den

/-- `np.percentile` with the default linear interpolation: on the sorted
sample `s` of length `n`, the value at fractional position `q/100 * (n-1)`.
(NumPy raises on an empty sample; the model returns 0 there.) -/
def percentile (q : ℚ) (xs : List ℚ) : ℚ :=
  let s := isort xs
  let n := s.length
  if n = 0 then 0
  else
    let pos := q / 100 * ((n : ℚ) - 1)
    let i := (qfloorZ pos).toNat
    let lo := s.getD i 0
    let hi := s.getD (i + 1) lo
    lo + (pos - (i : ℚ)) * (hi - lo)

/-- Does `needle` occur at the start of `hay`? -/
def startsWithChars : List Char → List Char → Bool
  | _, [] => true
  | [], _ :: _ => false
  | a :: as, b :: bs => a = b && startsWithChars as bs

/-- Substring test, modelling `hay.find(needle) >= 0` on Python strings. -/
def containsSub : List Char → List Char → Bool
  | [], needle => startsWithChars [] needle
  | hay@(_ :: t), needle => startsWithChars hay needle || containsSub t needle

/-- The characters of the substring `'electron'` tested by `__frame`. -/
def electronChars : List Char := ['e', 'l', 'e', 'c', 't', 'r', 'o', 'n']

/-- Division of a possibly-NaN value by a (nonzero) scale factor. -/
def scaleQN (f : ℚ) (x : QN) : QN := x.map (fun v => v / f)

/-- The numeric outputs of `S5Pplot.__frame` that reach the rendering calls:
the (rescaled) image data and marginal profiles, the `vmin`/`vmax` passed to
`imshow`, and the `vmin`/`vmax` passed to `mpl.colors.Normalize` for the
colorbar. -/
structure FrameOut where
  signal : List (List QN)
  signal_col : List QN
  signal_row : List QN
  vmin : ℚ
  vmax : ℚ
  norm_vmin : ℚ
  norm_vmax : ℚ
deriving DecidableEq

/-- Shallow embedding of the numeric part of `S5Pplot.__frame` (s5p_plot.py
lines 117-184): `(p_10, p_90)` are the 10th/90th percentiles of the finite
values of the input; when the unit string contains `'electron'` and
`max(|p_10|, |p_90|)` exceeds 1e9/1e6/1e3, the data, the profiles, and both
percentiles are divided by that factor; `imshow` receives `vmin=p_10,
vmax=p_90` and the colorbar is built on `Normalize(vmin=p_10, vmax=p_90)`. -/
def s5p_frame (signal_in : List (List QN)) (signal_col_in signal_row_in : List QN)
    (data_unit : Option (List Char)) : FrameOut :=
  let fin := finiteVals signal_in.flatten
  let p10 := percentile 10 fin
  let p90 := percentile 90 fin
  let scaled := fun (f : ℚ) =>
    FrameOut.mk (signal_in.map (List.map (scaleQN f))) (signal_col_in.map (scaleQN f))
      (signal_row_in.map (scaleQN f)) (p10 / f) (p90 / f) (p10 / f) (p90 / f)
  let unscaled :=
    FrameOut.mk signal_in signal_col_in signal_row_in p10 p90 p10 p90
  match data_unit with
  | none => unscaled
  | some u =>
    if containsSub u electronChars then
      let maxValue := qmax (qabs p10) (qabs p90)
      if maxValue > 1000000000 then scaled 1000000000
      else if maxValue > 1000000 then scaled 1000000
      else if maxValue > 1000 then scaled 1000
      else unscaled
    else unscaled

/-! ### `S5Pplot.__quality` (s5p_plot.py): quality-map categorization -/

/-- Truncation of a rational toward zero, as in a NumPy float-to-int cast. -/
def ratTrunc (q : ℚ) : ℤ := Int.tdiv q.num q.den

/-- Wrap an integer into the range of `np.int8`. -/
def toInt8 (z : ℤ) : ℤ := (z + 128) % 256 - 128

/-- One cell of `(dpqm * 10).astype(np.int8)`. -/
def categorize (q : ℚ) : ℤ := toInt8 (ratTrunc (10 * q))

/-- Sum of column `j` of the quality map (`np.sum(dpqm, axis=0)` at `j`). -/
def colSum (dpqm : List (List ℚ)) (j : ℕ) : ℚ := (dpqm.map (fun r => r.getD j 0)).sum

/-- Is `j` in `np.where(np.sum(dpqm, axis=0) < (256 // 4))[0]`? -/
def unusedColP (dpqm : List (List ℚ)) (j : ℕ) : Bool := decide (colSum dpqm j < 64)

/-- Is `j` in `np.where(np.sum(dpqm, axis=1) < (1000 // 4))[0]`, i.e. is `j`
the index of a row whose sum is below 250? -/
def unusedRowP (dpqm : List (List ℚ)) (j : ℕ) : Bool :=
  match dpqm.get? j with
  | some row => decide (row.sum < 250)
  | none => false

/-- Assign `-1` at every position of a row whose column index satisfies `p`
(the effect of `dpqf[:, idx] = -1` on one row), starting at index `k`. -/
def maskCols (p : ℕ → Bool) : List ℤ → ℕ → List ℤ
  | [], _ => []
  | x :: xs, k => (if p k then -1 else x) :: maskCols p xs (k + 1)

/-- Shallow embedding of the categorized map built by `S5Pplot.__quality`
(s5p_plot.py lines 280-288): `dpqf = (dpqm * 10).astype(np.int8)`, then
`dpqf[:, unused_cols] = -1` for the columns with sum below 64, then
`dpqf[:, unused_rows] = -1` — the source assigns the *columns* indexed by the
low-sum *row* indices.  The rendering that follows is not modelled. -/
def s5p_quality_dpqf (dpqm : List (List ℚ)) : List (List ℤ) :=
  let step0 := dpqm.map (fun row => row.map categorize)
  let step1 := step0.map (fun row => maskCols (unusedColP dpqm) row 0)
  step1.map (fun row => maskCols (unusedRowP dpqm) row 0)

/-! ### Python-level error model and path helpers -/

/-- The Python exceptions relevant to the accessor classes. -/
inductive PyErr
  | unboundLocal
  | assertionError
  | typeError
deriving DecidableEq

/-- `os.path.join` for the two-component joins used by the accessors. -/
def joinP (a b : String) : String := a ++ "/" ++ b

/-- `os.path.join(a, b, c)` where `b` may be the empty group name. -/
def joinP3 (a b c : String) : String :=
  if b = "" then a ++ "/" ++ c else a ++ "/" ++ b ++ "/" ++ c

/-- `os.path.basename`. -/
def baseName (s : String) : String := (s.splitOn ("/")).getLastD s

/-- `os.path.dirname`. -/
def dirName (s : String) : String :=
  String.intercalate ("/") ((s.splitOn ("/")).dropLast)

/-- The S5p floating-point fill value `float.fromhex('0x1.ep+122')`, exactly
`15 * 2^119`. -/
def s5pFillValue : ℚ := 9969209968386869046778552952102584320

/-- The fill-value conversion shared by `LV2io.get_msm_data` (lv2_io.py lines
258-259) and `ICMio.get_msm_data` (icm_io.py lines 398-400): when the flag is
set and the dataset's `_FillValue` attribute equals the sentinel, every
element equal to the sentinel becomes NaN; otherwise the data is untouched. -/
def fill_with_nan (flag : Bool) (fillAttr : QN) (data : List QN) : List QN :=
  if flag ∧ fillAttr = some s5pFillValue then
    data.map (fun x => if x = some s5pFillValue then none else x)
  else data

/-! ### `LV2io` (lv2_io.py) -/

/-- The parts of an open level-2 HDF5 file that `LV2io` reads: datasets of
the `GEOLOCATIONS` group (already squeezed), datasets under `/PRODUCT`
(already squeezed, float32 widened to float64), and their `_FillValue`
attributes. -/
structure LV2fid where
  geoAt : List Char → List ℚ
  productData : String → List QN
  productFillAttr : String → QN

/-- Python `str.split(',')`: never returns an empty list. -/
def splitComma : List Char → List (List Char)
  | [] => [[]]
  | c :: cs =>
    if c = ',' then [] :: splitComma cs
    else
      match splitComma cs with
      | [] => [[c]]
      | h :: t => (c :: h) :: t

/-- The loop of `LV2io.get_geo_data` (lv2_io.py lines 202-206) with Python
local-variable semantics: the state is `none` while the local `res` is
unbound; the loop body first evaluates `res is None`, which raises
`UnboundLocalError` when `res` is unbound. -/
def lv2GeoLoop (fid : LV2fid) :
    List (List Char) → Option (Option (List ℚ)) → Except PyErr (Option (Option (List ℚ)))
  | [], st => .ok st
  | k :: ks, st =>
    match st with
    | none => .error .unboundLocal
    | some none => lv2GeoLoop fid ks (some (some (fid.geoAt k)))
    | some (some arr) => lv2GeoLoop fid ks (some (some (arr ++ fid.geoAt k)))

/-- Shallow embedding of `LV2io.get_geo_data` (lv2_io.py lines 185-208): the
accumulator `res` is never initialised before the loop, so the state starts
unbound; the final `return res` also reads `res`. -/
def lv2_get_geo_data (fid : LV2fid) (geo_dset : List Char) : Except PyErr (Option (List ℚ)) :=
  match lv2GeoLoop fid (splitComma geo_dset) none with
  | .error e => .error e
  | .ok none => .error .unboundLocal
  | .ok (some v) => .ok v

/-- Shallow embedding of `LV2io.get_msm_data` (lv2_io.py lines 236-260): read
`/PRODUCT/<name>` (squeezing and the float32-to-float64 cast preserve the
element values) and apply the fill-value conversion; the Python default of
`fill_as_nan` is `True`. -/
def lv2_get_msm_data (fid : LV2fid) (name : String) (fill_as_nan : Bool) : List QN :=
  let path := "/PRODUCT/" ++ name
  let res := fid.productData path
  fill_with_nan fill_as_nan (fid.productFillAttr path) res

/-! ### `ICMio` (icm_io.py) -/

/-- The parts of an open ICM_CA_SIR HDF5 file that the modelled `ICMio`
methods read: membership of paths, the scalar `time` value of an
`OBSERVATIONS` group (as seconds relative to the 2010-01-01 epoch the source
adds it to), a `delta_time` row, `instrument_settings` and
`housekeeping_data` records of an `INSTRUMENT` group (as opaque integers),
decoded `group` keys of a `*_group_keys` dataset, squeezed dataset values
with their `_FillValue` attribute, and the shape test performed before
patching a dataset (the stored shape against the length of the supplied
band array). -/
structure ICMfid where
  contains : String → Bool
  timeAt : String → ℤ
  deltaAt : String → List ℤ
  instrAt : String → List ℤ
  hkAt : String → List ℤ
  groupKeysAt : String → List String
  dataAt : String → List QN
  fillAttrAt : String → QN
  shapeOkAt : String → ℕ → Bool

/-- The attributes of an `ICMio` object the modelled methods touch:
`__msm_path`, `bands` (`None` until `select` runs), `__rw`, and
`__patched_msm`. -/
structure ICMstate where
  msm_path : Option String
  bands : Option (List Char)
  rw : Bool
  patched : List String
deriving DecidableEq

/-- The attribute initialisation of `ICMio.__init__` (icm_io.py lines 43-47):
`__msm_path = None`, `bands = None`. -/
def icm_init (rw : Bool) : ICMstate :=
  { msm_path := none, bands := none, rw := rw, patched := [] }

/-- The spectral band digits `'12345678'` iterated by `ICMio.select`. -/
def bandChars : List Char := ['1', '2', '3', '4', '5', '6', '7', '8']

/-- The group list `['ANALYSIS', 'CALIBRATION', 'IRRADIANCE', 'RADIANCE']`
searched by `ICMio.select` when no path is given. -/
def icmGrpNames : List String := ["ANALYSIS", "CALIBRATION", "IRRADIANCE", "RADIANCE"]

/-- The dataset group list `['OBSERVATIONS', 'ANALYSIS', '']` searched by
`ICMio.get_msm_data` and `ICMio.set_msm_data`. -/
def icmDsetGrps : List String := ["OBSERVATIONS", "ANALYSIS", ""]

/-- Shallow embedding of `ICMio.select` (icm_io.py lines 313-360).  It first
resets `bands` to the empty string and `__msm_path` to `None`; with an
explicit path it asserts the `BAND%` prefix and collects the bands whose
group exists; without one it scans the four band-group names, remembering the
last matching path pattern and appending the band digit per match; finally
`__msm_path` is set only when at least one band was found.  Returns the
updated object state together with the result (`bands`) or the exception. -/
def icm_select (st : ICMstate) (fid : ICMfid) (msm_type : String) (mpath : Option String) :
    ICMstate × Except PyErr (List Char) :=
  let st0 : ICMstate := { st with bands := some [], msm_path := none }
  match mpath with
  | some p =>
    if ¬ p.startsWith ("BAND%") then (st0, .error .assertionError)
    else
      let bs := bandChars.filter
        (fun ii => fid.contains (joinP (p.replace ("%") (String.singleton ii)) msm_type))
      if bs.isEmpty then ({ st0 with bands := some bs }, .ok bs)
      else ({ st0 with bands := some bs, msm_path := some (joinP p msm_type) }, .ok bs)
  | none =>
    let scan := bandChars.foldl (fun (acc : Option String × List Char) ii =>
      icmGrpNames.foldl (fun (acc2 : Option String × List Char) name =>
        if fid.contains (joinP ("BAND" ++ String.singleton ii ++ "_" ++ name) msm_type) then
          (some ("BAND%_" ++ name), acc2.2 ++ [ii])
        else acc2) acc) (none, [])
    if scan.2.isEmpty then ({ st0 with bands := some scan.2 }, .ok scan.2)
    else
      match scan.1 with
      | some mpv =>
        ({ st0 with bands := some scan.2, msm_path := some (joinP mpv msm_type) }, .ok scan.2)
      | none => ({ st0 with bands := some scan.2 }, .error .typeError)

/-- Shallow embedding of `ICMio.get_ref_time` (icm_io.py lines 130-171),
returning the reference time as seconds relative to the 2010-01-01 epoch.
Returns `None` when no measurement is selected; for the group-key products it
keeps the time of the last listed group (an empty key list leaves the local
`ref_time` unbound). -/
def icm_get_ref_time (st : ICMstate) (fid : ICMfid) : Except PyErr (Option ℤ) :=
  match st.msm_path with
  | none => .ok none
  | some mp =>
    match st.bands with
    | some (c :: _) =>
      let ii := String.singleton c
      let msm_path := mp.replace ("%") ii
      let msm_type := baseName mp
      if msm_type = "ANALOG_OFFSET_SWIR" ∨ msm_type = "LONG_TERM_SWIR" then
        let keys := fid.groupKeysAt (joinP msm_path (msm_type.toLower ++ "_group_keys"))
        match keys.getLast? with
        | none => .error .unboundLocal
        | some name =>
          .ok (some (fid.timeAt
            (joinP (joinP ("BAND" ++ ii ++ "_CALIBRATION") name) ("OBSERVATIONS"))))
      else if msm_type = "DPQF_MAP" ∨ msm_type = "NOISE" then
        let keys := fid.groupKeysAt
          (joinP (joinP (dirName msm_path) ("ANALOG_OFFSET_SWIR")) ("analog_offset_swir_group_keys"))
        match keys.getLast? with
        | none => .error .unboundLocal
        | some name =>
          .ok (some (fid.timeAt
            (joinP (joinP ("BAND" ++ ii ++ "_CALIBRATION") name) ("OBSERVATIONS"))))
      else .ok (some (fid.timeAt (joinP msm_path ("OBSERVATIONS"))))
    | _ => .error .typeError

/-- Append-accumulation shared by the group-key loops of `get_delta_time`,
`get_instrument_settings` and `get_housekeeping_data`: `res` starts as `None`
and each found array is appended (`np.append`). -/
def icmAccum (f : String → List ℤ) (paths : List String) : Option (List ℤ) :=
  paths.foldl (fun acc p => some (acc.getD [] ++ f p)) none

/-- Shallow embedding of `ICMio.get_delta_time` (icm_io.py lines 173-218). -/
def icm_get_delta_time (st : ICMstate) (fid : ICMfid) : Except PyErr (Option (List ℤ)) :=
  match st.msm_path with
  | none => .ok none
  | some mp =>
    match st.bands with
    | some (c :: _) =>
      let ii := String.singleton c
      let msm_path := mp.replace ("%") ii
      let msm_type := baseName mp
      if msm_type = "ANALOG_OFFSET_SWIR" ∨ msm_type = "LONG_TERM_SWIR" then
        let keys := fid.groupKeysAt (joinP msm_path (msm_type.toLower ++ "_group_keys"))
        .ok (icmAccum fid.deltaAt (keys.map (fun name =>
          joinP (joinP ("BAND" ++ ii ++ "_CALIBRATION") name) ("OBSERVATIONS"))))
      else if msm_type = "DPQF_MAP" ∨ msm_type = "NOISE" then
        let keys := fid.groupKeysAt
          (joinP (joinP (dirName msm_path) ("ANALOG_OFFSET_SWIR")) ("analog_offset_swir_group_keys"))
        .ok (icmAccum fid.deltaAt (keys.map (fun name =>
          joinP (joinP ("BAND" ++ ii ++ "_CALIBRATION") name) ("OBSERVATIONS"))))
      else .ok (some (fid.deltaAt (joinP msm_path ("OBSERVATIONS"))))
    | _ => .error .typeError

/-- Shallow embedding of `ICMio.get_instrument_settings`
(icm_io.py lines 220-264). -/
def icm_get_instrument_settings (st : ICMstate) (fid : ICMfid) :
    Except PyErr (Option (List ℤ)) :=
  match st.msm_path with
  | none => .ok none
  | some mp =>
    match st.bands with
    | some (c :: _) =>
      let ii := String.singleton c
      let msm_path := mp.replace ("%") ii
      let msm_type := baseName mp
      if msm_type = "ANALOG_OFFSET_SWIR" ∨ msm_type = "LONG_TERM_SWIR" then
        let keys := fid.groupKeysAt (joinP msm_path (msm_type.toLower ++ "_group_keys"))
        .ok (icmAccum fid.instrAt (keys.map (fun name =>
          joinP (joinP ("BAND" ++ ii ++ "_CALIBRATION") name) ("INSTRUMENT"))))
      else if msm_type = "DPQF_MAP" ∨ msm_type = "NOISE" then
        let keys := fid.groupKeysAt
          (joinP (joinP (dirName msm_path) ("ANALOG_OFFSET_SWIR")) ("analog_offset_swir_group_keys"))
        .ok (icmAccum fid.instrAt (keys.map (fun name =>
          joinP (joinP ("BAND" ++ ii ++ "_CALIBRATION") name) ("INSTRUMENT"))))
      else .ok (some (fid.instrAt (joinP msm_path ("INSTRUMENT"))))
    | _ => .error .typeError

/-- Shallow embedding of `ICMio.get_housekeeping_data`
(icm_io.py lines 266-310). -/
def icm_get_housekeeping_data (st : ICMstate) (fid : ICMfid) :
    Except PyErr (Option (List ℤ)) :=
  match st.msm_path with
  | none => .ok none
  | some mp =>
    match st.bands with
    | some (c :: _) =>
      let ii := String.singleton c
      let msm_path := mp.replace ("%") ii
      let msm_type := baseName mp
      if msm_type = "ANALOG_OFFSET_SWIR" ∨ msm_type = "LONG_TERM_SWIR" then
        let keys := fid.groupKeysAt (joinP msm_path (msm_type.toLower ++ "_group_keys"))
        .ok (icmAccum fid.hkAt (keys.map (fun name =>
          joinP (joinP ("BAND" ++ ii ++ "_CALIBRATION") name) ("INSTRUMENT"))))
      else if msm_type = "DPQF_MAP" ∨ msm_type = "NOISE" then
        let keys := fid.groupKeysAt
          (joinP (joinP (dirName msm_path) ("ANALOG_OFFSET_SWIR")) ("analog_offset_swir_group_keys"))
        .ok (icmAccum fid.hkAt (keys.map (fun name =>
          joinP (joinP ("BAND" ++ ii ++ "_CALIBRATION") name) ("INSTRUMENT"))))
      else .ok (some (fid.hkAt (joinP msm_path ("INSTRUMENT"))))
    | _ => .error .typeError

/-- Shallow embedding of `ICMio.get_msm_data` (icm_io.py lines 363-406): for
each selected band and each dataset group, when the dataset exists its
squeezed values pass through the fill-value conversion and are appended to
the result list (`res` starts as `None`, so with no dataset found the method
returns `None`).  Note the Python default of `fill_as_nan` here is `False`. -/
def icm_get_msm_data (st : ICMstate) (fid : ICMfid) (msm_dset : String)
    (fill_as_nan : Bool) : Except PyErr (Option (List (List QN))) :=
  match st.msm_path with
  | none => .ok none
  | some mp =>
    match st.bands with
    | some bs =>
      .ok (bs.foldl (fun (acc : Option (List (List QN))) ii =>
        icmDsetGrps.foldl (fun (acc2 : Option (List (List QN))) dset_grp =>
          let ds_path := joinP3 (mp.replace ("%") (String.singleton ii)) dset_grp msm_dset
          if fid.contains ds_path then
            some (acc2.getD [] ++
              [fill_with_nan fill_as_nan (fid.fillAttrAt ds_path) (fid.dataAt ds_path)])
          else acc2) acc) none)
    | none => .error .typeError

/-- The inner dataset-group loop of `ICMio.set_msm_data` for one band: skip
missing datasets, fail the whole call (early `return None`) when the stored
shape differs from the supplied band array's, otherwise record the patched
path.  `Except` carries the early exit, with the patched paths so far. -/
def icmSetBand (fid : ICMfid) (msm_dset : String) (dlen : ℕ) (mpII : String) :
    List String → List String → Except (List String) (List String)
  | [], patched => .ok patched
  | g :: gs, patched =>
    let ds_path := joinP3 mpII g msm_dset
    if fid.contains ds_path then
      if fid.shapeOkAt ds_path dlen then
        icmSetBand fid msm_dset dlen mpII gs (patched ++ [ds_path])
      else .error patched
    else icmSetBand fid msm_dset dlen mpII gs patched

/-- The band loop of `ICMio.set_msm_data`, with `kk` counting bands. -/
def icmSetLoop (fid : ICMfid) (msm_dset : String) (data : List (List QN)) (mp : String) :
    List Char → ℕ → List String → List String
  | [], _, patched => patched
  | ii :: rest, kk, patched =>
    match icmSetBand fid msm_dset (data.getD kk []).length
        (mp.replace ("%") (String.singleton ii)) icmDsetGrps patched with
    | .ok p2 => icmSetLoop fid msm_dset data mp rest (kk + 1) p2
    | .error p2 => p2

/-- Shallow embedding of `ICMio.set_msm_data` (icm_io.py lines 409-451): the
method returns `None` on every path (both the guard and the fall-through),
so its observable outcome is the exception behaviour plus the list of patched
dataset paths appended to `__patched_msm`.  The in-place NaN-to-fill rewrite
of the caller's arrays and the HDF5 writes are not modelled beyond the
patched-path record. -/
def icm_set_msm_data (st : ICMstate) (fid : ICMfid) (msm_dset : String)
    (data : List (List QN)) : Except PyErr (List String) :=
  match st.msm_path with
  | none => .ok []
  | some mp =>
    if ¬ st.rw then .error .assertionError
    else
      match st.bands with
      | some bs => .ok (icmSetLoop fid msm_dset data mp bs 0 [])
      | none => .error .typeError

/-- A concrete file oracle containing no groups at all, used to instantiate
the accessor theorems on a closed input. -/
def emptyICMfid : ICMfid :=
  ⟨fun _ => false, fun _ => 0, fun _ => [], fun _ => [], fun _ => [],
   fun _ => [], fun _ => [], fun _ => none, fun _ _ => true⟩

/-- A concrete figure-info dictionary with all four statistic keys present. -/
def figInfoAllKeys : FigInfo :=
  ⟨some 3, some (some 1), some (some 2), some (some 3), some (some 4)⟩

/-! ## Supporting lemmas -/

theorem finiteVals_map_some (l : List ℚ) : finiteVals (l.map some) = l := by
  induction l with
  | nil => rfl
  | cons x xs ih => simp [finiteVals, ih]

theorem finiteVals_all_none (xs : List QN) (h : ∀ x ∈ xs, x = none) :
    finiteVals xs = [] := by
  induction xs with
  | nil => rfl
  | cons x t ih =>
    have hx := h x (List.mem_cons_self x t)
    subst hx
    exact ih (fun y hy => h y (List.mem_cons_of_mem _ hy))

theorem finiteVals_ne_nil (xs : List QN) (h : ∃ x ∈ xs, x.isSome) :
    finiteVals xs ≠ [] := by
  induction xs with
  | nil => rcases h with ⟨x, hx, -⟩; cases hx
  | cons x t ih =>
    rcases h with ⟨y, hy, hsome⟩
    rcases List.mem_cons.mp hy with rfl | hyt
    · cases y with
      | none => cases hsome
      | some q => simp [finiteVals]
    · cases x with
      | none => simpa [finiteVals] using ih ⟨y, hyt, hsome⟩
      | some q => simp [finiteVals]

theorem length_insertSorted (x : ℚ) (l : List ℚ) :
    (insertSorted x l).length = l.length + 1 := by
  induction l with
  | nil => rfl
  | cons y ys ih =>
    by_cases h : x ≤ y
    · simp [insertSorted, h]
    · simp [insertSorted, h, ih]

theorem length_isort (l : List ℚ) : (isort l).length = l.length := by
  induction l with
  | nil => rfl
  | cons x xs ih =>
    show (insertSorted x (isort xs)).length = xs.length + 1
    rw [length_insertSorted, ih]

theorem med_of_ne_nil (l : List ℚ) (h : l ≠ []) : ∃ m, med l = some m := by
  have hlen : (isort l).length ≠ 0 := by
    rw [length_isort]
    exact fun hh => h (List.length_eq_zero.mp hh)
  unfold med
  split
  · exact absurd (by assumption) hlen
  · split
    · exact ⟨_, rfl⟩
    · exact ⟨_, rfl⟩

theorem biweightPair_isSome (c eps : ℚ) (xs : List QN) (h : finiteVals xs ≠ []) :
    ∃ m s, biweightPair c eps xs = (some m, some s) := by
  rcases med_of_ne_nil (finiteVals xs) h with ⟨m0, hm⟩
  simp only [biweightPair, hm]
  split
  · exact ⟨m0, 0, rfl⟩
  · exact ⟨_, _, rfl⟩

theorem getD_of_lt (l : List α) (j : ℕ) (d : α) (h : j < l.length) :
    l.getD j d = l[j] := by
  induction l generalizing j with
  | nil => cases h
  | cons x xs ih =>
    cases j with
    | zero => rfl
    | succ k => exact ih k (Nat.lt_of_succ_lt_succ h)

theorem zipWith_cons_getElem? :
    ∀ (l₁ : List QN) (l₂ : List (List QN)) (j : ℕ),
      (List.zipWith List.cons l₁ l₂)[j]? =
        match l₁[j]?, l₂[j]? with
        | some a, some b => some (a :: b)
        | _, _ => none := by
  intro l₁
  induction l₁ with
  | nil => intro l₂ j; cases l₂ <;> cases j <;> simp [List.zipWith]
  | cons x xs ih =>
    intro l₂ j
    cases l₂ with
    | nil => cases j <;> simp [List.zipWith]
    | cons y ys =>
      cases j with
      | zero => simp [List.zipWith]
      | succ k => simpa [List.zipWith] using ih ys k

theorem tcols_getElem? :
    ∀ (a : List (List QN)) (C : ℕ), (∀ r ∈ a, r.length = C) → a ≠ [] →
      ∀ j, j < C → (tcols a)[j]? = some (colAt a j) := by
  intro a
  induction a with
  | nil => intro C _ hne; exact absurd rfl hne
  | cons r rest ih =>
    intro C h _ j hj
    have hr : r.length = C := h r (List.mem_cons_self r rest)
    cases rest with
    | nil =>
      have hjr : j < r.length := hr ▸ hj
      simp only [tcols, colAt, List.map_cons, List.map_nil, List.getElem?_map,
        List.getElem?_eq_getElem hjr, Option.map_some']
      rw [getD_of_lt r j none hjr]
    | cons r2 rs =>
      have ihh := ih C (fun x hx => h x (List.mem_cons_of_mem _ hx)) (by simp) j hj
      have hjr : j < r.length := hr ▸ hj
      simp only [tcols]
      rw [zipWith_cons_getElem?, List.getElem?_eq_getElem hjr, ihh]
      simp only [colAt, List.map_cons]
      rw [getD_of_lt r j none hjr]

/-! ## Claims -/

/-- Claim C8: `LV2io.get_geo_data` reads its accumulator `res` before ever
assigning it, so for every file and every `geo_dset` argument the call raises
`UnboundLocalError` and never returns. -/
theorem lv2_get_geo_data_always_unbound (fid : LV2fid) (geo_dset : List Char) :
    lv2_get_geo_data fid geo_dset = .error PyErr.unboundLocal := by
  have hne : splitComma geo_dset ≠ [] := by
    induction geo_dset with
    | nil => simp [splitComma]
    | cons c cs ih =>
      by_cases hc : c = ','
      · simp [splitComma, hc]
      · simp only [splitComma, if_neg hc]
        cases hsp : splitComma cs with
        | nil => simp
        | cons h t => simp
  cases hsp : splitComma geo_dset with
  | nil => exact absurd hsp hne
  | cons k ks => simp [lv2_get_geo_data, hsp, lv2GeoLoop]

/-- Claim C4: the biweight estimator fails with an invalid-input error
exactly on the empty sample; every non-empty sample — NaN values included —
yields a result rather than an exception. -/
theorem biweight_empty_error_nonempty_total (c eps : ℚ) (xs : List QN) :
    (xs = [] → biweight c eps xs = .error ("invalid input: empty sample")) ∧
    (xs ≠ [] → biweight c eps xs = .ok (biweightPair c eps xs)) := by
  constructor
  · intro h; simp [biweight, h]
  · intro h; simp [biweight, h]

/-- Witness for C4 at concrete inputs: the empty sample errors, a NaN-laden
two-element sample succeeds. -/
theorem biweight_empty_error_nonempty_total_witness :
    biweight cDefault epsDefault [] = .error ("invalid input: empty sample") ∧
    biweight cDefault epsDefault [some 1, none] =
      .ok (biweightPair cDefault epsDefault [some 1, none]) :=
  ⟨(biweight_empty_error_nonempty_total cDefault epsDefault []).1 rfl,
   (biweight_empty_error_nonempty_total cDefault epsDefault [some 1, none]).2 (by decide)⟩

/-- Claim C5: NaN values are excluded from every statistic of the biweight
estimator without propagating into the result: an all-NaN non-empty sample
yields NaN location (and NaN spread) instead of an error, the result depends
only on the finite values, and a sample with at least one finite value gets a
finite (non-NaN) location and spread. -/
theorem biweight_nan_handling (c eps : ℚ) (xs : List QN) (hne : xs ≠ []) :
    ((∀ x ∈ xs, x = none) → biweight c eps xs = .ok (none, none)) ∧
    biweightPair c eps xs = biweightPair c eps ((finiteVals xs).map some) ∧
    ((∃ x ∈ xs, x.isSome) →
      ∃ m s, biweight c eps xs = .ok (some m, some s)) := by
  refine ⟨?_, ?_, ?_⟩
  · intro hall
    have h0 : finiteVals xs = [] := finiteVals_all_none xs hall
    simp [biweight, hne, biweightPair, h0, med, isort]
  · simp only [biweightPair, finiteVals_map_some]
  · intro hfin
    rcases biweightPair_isSome c eps xs (finiteVals_ne_nil xs hfin) with ⟨m, s, hp⟩
    exact ⟨m, s, by simp [biweight, hne, hp]⟩

/-- Witness for C5 at concrete inputs: an all-NaN sample and a mixed
NaN/finite sample. -/
theorem biweight_nan_handling_witness :
    biweight cDefault epsDefault [none, none] = .ok (none, none) ∧
    biweightPair cDefault epsDefault [none, some 2] =
      biweightPair cDefault epsDefault ((finiteVals [none, some 2]).map some) ∧
    (∃ m s, biweight cDefault epsDefault [none, some 2] = .ok (some m, some s)) :=
  ⟨(biweight_nan_handling cDefault epsDefault [none, none] (by decide)).1 (by decide),
   (biweight_nan_handling cDefault epsDefault [none, some 2] (by decide)).2.1,
   (biweight_nan_handling cDefault epsDefault [none, some 2] (by decide)).2.2 (by decide)⟩

/-- Claim C6: the biweight estimator applied along axis 0 of an (R, C) array
gives, at each column index `j`, exactly the (location, spread) pair of the
estimator applied to column `j` on its own. -/
theorem biweightAxis0_eq_columnwise (c eps : ℚ) (a : List (List QN)) (C : ℕ)
    (hshape : ∀ r ∈ a, r.length = C) (hne : a ≠ []) :
    ∀ j, j < C → (biweightAxis0 c eps a)[j]? = some (biweightPair c eps (colAt a j)) := by
  intro j hj
  simp only [biweightAxis0, List.getElem?_map, tcols_getElem? a C hshape hne j hj,
    Option.map_some']

/-- Witness for C6 on a concrete 2×2 array at column 0. -/
theorem biweightAxis0_eq_columnwise_witness :
    (biweightAxis0 cDefault epsDefault [[some 1, some 2], [some 3, some 4]])[0]? =
      some (biweightPair cDefault epsDefault
        (colAt [[some 1, some 2], [some 3, some 4]] 0)) :=
  biweightAxis0_eq_columnwise cDefault epsDefault [[some 1, some 2], [some 3, some 4]] 2
    (by decide) (by decide) 0 (by decide)

/-- Claim C1 (failing input): with `data = [[0, 1, 10]]` and `data_col` left
`None`, `draw_signal` uses `np.nanmedian(data, axis=1) = [1]`, whereas the
profile promised by its docstring, `biweight(data, axis=1)`, is not `[1]`
(the biweight location of `[0, 1, 10]` is pulled below the median once the
outlying 10 is down-weighted). -/
theorem draw_signal_default_profile_bug :
    draw_signal_data_col [[some 0, some 1, some 10]] none = [some 1] ∧
    draw_signal_doc_data_col [[some 0, some 1, some 10]] ≠ [some 1] := by
  constructor
  · decide
  · decide

/-- Claim C2: `__hist` computes the biweight estimate of the flattened finite
signal values exactly when `sign_median` or `sign_spread` is missing from
`fig_info` (the `fig_info=None` default has neither), stores the pair under
those keys, and shifts the histogrammed values by the stored location; when
both keys are present the estimator result is not used: the stored values
stay exactly the caller's and the shift uses the caller's median.  The same
holds for the error array with `error_median`/`error_spread`; when all four
keys are present the call succeeds without invoking the estimator at all. -/
theorem hist_prep_spec (s e : List QN) (fi? : Option FigInfo) :
    (∀ fi' sOut eOut, hist_prep s e fi? = .ok (fi', sOut, eOut) →
      (((fi?.getD figInfoDefault).sign_median = none ∨
        (fi?.getD figInfoDefault).sign_spread = none →
         fi'.sign_median = some (biweightPair cDefault epsDefault ((finiteVals s).map some)).1 ∧
         fi'.sign_spread = some (biweightPair cDefault epsDefault ((finiteVals s).map some)).2 ∧
         sOut = (finiteVals s).map (fun x => qnSub (some x)
           (biweightPair cDefault epsDefault ((finiteVals s).map some)).1)) ∧
       ((fi?.getD figInfoDefault).sign_median ≠ none ∧
        (fi?.getD figInfoDefault).sign_spread ≠ none →
         fi'.sign_median = (fi?.getD figInfoDefault).sign_median ∧
         fi'.sign_spread = (fi?.getD figInfoDefault).sign_spread ∧
         sOut = (finiteVals s).map (fun x => qnSub (some x)
           ((fi?.getD figInfoDefault).sign_median.getD none))) ∧
       ((fi?.getD figInfoDefault).error_median = none ∨
        (fi?.getD figInfoDefault).error_spread = none →
         fi'.error_median = some (biweightPair cDefault epsDefault ((finiteVals e).map some)).1 ∧
         fi'.error_spread = some (biweightPair cDefault epsDefault ((finiteVals e).map some)).2 ∧
         eOut = (finiteVals e).map (fun x => qnSub (some x)
           (biweightPair cDefault epsDefault ((finiteVals e).map some)).1)) ∧
       ((fi?.getD figInfoDefault).error_median ≠ none ∧
        (fi?.getD figInfoDefault).error_spread ≠ none →
         fi'.error_median = (fi?.getD figInfoDefault).error_median ∧
         fi'.error_spread = (fi?.getD figInfoDefault).error_spread ∧
         eOut = (finiteVals e).map (fun x => qnSub (some x)
           ((fi?.getD figInfoDefault).error_median.getD none))))) ∧
    ((fi?.getD figInfoDefault).sign_median ≠ none ∧
     (fi?.getD figInfoDefault).sign_spread ≠ none ∧
     (fi?.getD figInfoDefault).error_median ≠ none ∧
     (fi?.getD figInfoDefault).error_spread ≠ none →
      hist_prep s e fi? = .ok (fi?.getD figInfoDefault,
        (finiteVals s).map (fun x => qnSub (some x)
          ((fi?.getD figInfoDefault).sign_median.getD none)),
        (finiteVals e).map (fun x => qnSub (some x)
          ((fi?.getD figInfoDefault).error_median.getD none)))) := by
  constructor
  · intro fi' sOut eOut hok
    by_cases hs : (fi?.getD figInfoDefault).sign_median = none ∨
        (fi?.getD figInfoDefault).sign_spread = none
    · by_cases hsig : finiteVals s = []
      · simp [hist_prep, hs, biweight, hsig, List.map_eq_nil_iff] at hok
      · by_cases he : (fi?.getD figInfoDefault).error_median = none ∨
            (fi?.getD figInfoDefault).error_spread = none
        · by_cases herr : finiteVals e = []
          · simp [hist_prep, hs, he, biweight, hsig, herr, List.map_eq_nil_iff] at hok
          · simp [hist_prep, hs, he, biweight, hsig, herr, List.map_eq_nil_iff] at hok
            obtain ⟨hfi, hsOut, heOut⟩ := hok
            subst hfi
            exact ⟨fun _ => ⟨rfl, rfl, hsOut.symm⟩,
              fun hc => hs.elim (fun h => absurd h hc.1) (fun h => absurd h hc.2),
              fun _ => ⟨rfl, rfl, heOut.symm⟩,
              fun hc => he.elim (fun h => absurd h hc.1) (fun h => absurd h hc.2)⟩
        · simp [hist_prep, hs, he, biweight, hsig, List.map_eq_nil_iff] at hok
          obtain ⟨hfi, hsOut, heOut⟩ := hok
          subst hfi
          exact ⟨fun _ => ⟨rfl, rfl, hsOut.symm⟩,
            fun hc => hs.elim (fun h => absurd h hc.1) (fun h => absurd h hc.2),
            fun hce => absurd hce he, fun _ => ⟨rfl, rfl, heOut.symm⟩⟩
    · by_cases he : (fi?.getD figInfoDefault).error_median = none ∨
          (fi?.getD figInfoDefault).error_spread = none
      · by_cases herr : finiteVals e = []
        · simp [hist_prep, hs, he, biweight, herr, List.map_eq_nil_iff] at hok
        · simp [hist_prep, hs, he, biweight, herr, List.map_eq_nil_iff] at hok
          obtain ⟨hfi, hsOut, heOut⟩ := hok
          subst hfi
          exact ⟨fun hcs => absurd hcs hs, fun _ => ⟨rfl, rfl, hsOut.symm⟩,
            fun _ => ⟨rfl, rfl, heOut.symm⟩,
            fun hc => he.elim (fun h => absurd h hc.1) (fun h => absurd h hc.2)⟩
      · simp [hist_prep, hs, he, biweight] at hok
        obtain ⟨hfi, hsOut, heOut⟩ := hok
        subst hfi
        exact ⟨fun hcs => absurd hcs hs, fun _ => ⟨rfl, rfl, hsOut.symm⟩,
          fun hce => absurd hce he, fun _ => ⟨rfl, rfl, heOut.symm⟩⟩
  · rintro ⟨h1, h2, h3, h4⟩
    have hs : ¬ ((fi?.getD figInfoDefault).sign_median = none ∨
        (fi?.getD figInfoDefault).sign_spread = none) := by
      rintro (h | h)
      · exact h1 h
      · exact h2 h
    have he : ¬ ((fi?.getD figInfoDefault).error_median = none ∨
        (fi?.getD figInfoDefault).error_spread = none) := by
      rintro (h | h)
      · exact h3 h
      · exact h4 h
    simp [hist_prep, hs, he]

/-- Witness for C2: with all four statistic keys supplied, `__hist` succeeds
and uses the caller's values unchanged. -/
theorem hist_prep_spec_witness :
    hist_prep [some 5, none] [some 7] (some figInfoAllKeys) =
      .ok (figInfoAllKeys,
        (finiteVals [some 5, none]).map (fun x => qnSub (some x)
          (figInfoAllKeys.sign_median.getD none)),
        (finiteVals [some 7]).map (fun x => qnSub (some x)
          (figInfoAllKeys.error_median.getD none))) :=
  (hist_prep_spec [some 5, none] [some 7] (some figInfoAllKeys)).2
    ⟨by decide, by decide, by decide, by decide⟩

theorem foldl_optlist_preserve {α β : Type} (step : Option (List β) → α → Option (List β))
    (Q : β → Prop)
    (hstep : ∀ acc x, (∀ d ∈ acc.getD [], Q d) → ∀ d ∈ (step acc x).getD [], Q d) :
    ∀ (L : List α) (acc : Option (List β)), (∀ d ∈ acc.getD [], Q d) →
      ∀ d ∈ (L.foldl step acc).getD [], Q d := by
  intro L
  induction L with
  | nil => intro acc h; exact h
  | cons x xs ih => intro acc h; exact ih _ (hstep acc x h)

/-- Claim C3: the fill-value conversion of `get_msm_data`.  When the flag is
set and the dataset's `_FillValue` attribute equals `0x1.ep+122`, every
element equal to the sentinel becomes NaN and every other element is
unchanged; when the flag is unset or the attribute differs, no element is
altered.  `LV2io.get_msm_data` applies exactly this conversion to the
`/PRODUCT` dataset it reads, and every array returned by
`ICMio.get_msm_data` is the conversion of the dataset found at some path. -/
theorem fill_value_conversion (flag : Bool) (attr : QN) (data : List QN) :
    ((flag = true ∧ attr = some s5pFillValue) →
      ∀ j : ℕ, (fill_with_nan flag attr data)[j]? =
        (data[j]?).map (fun x => if x = some s5pFillValue then none else x)) ∧
    ((flag = false ∨ attr ≠ some s5pFillValue) → fill_with_nan flag attr data = data) ∧
    (∀ (fid : LV2fid) (name : String), lv2_get_msm_data fid name flag =
      fill_with_nan flag (fid.productFillAttr ("/PRODUCT/" ++ name))
        (fid.productData ("/PRODUCT/" ++ name))) ∧
    (∀ (st : ICMstate) (fid : ICMfid) (dset : String) (res : List (List QN)),
      icm_get_msm_data st fid dset flag = .ok (some res) →
      ∀ d ∈ res, ∃ p, fid.contains p = true ∧
        d = fill_with_nan flag (fid.fillAttrAt p) (fid.dataAt p)) := by
  refine ⟨?_, ?_, ?_, ?_⟩
  · rintro ⟨hf, ha⟩ j
    subst hf
    simp [fill_with_nan, ha]
  · intro h
    rcases h with h | h
    · simp [fill_with_nan, h]
    · simp [fill_with_nan, h]
  · intro fid name
    rfl
  · intro st fid dset res hok d hd
    cases hmp : st.msm_path with
    | none => simp [icm_get_msm_data, hmp] at hok
    | some mp =>
      cases hb : st.bands with
      | none => simp [icm_get_msm_data, hmp, hb] at hok
      | some bs =>
        simp only [icm_get_msm_data, hmp, hb, Except.ok.injEq] at hok
        have main := foldl_optlist_preserve
          (fun (acc : Option (List (List QN))) ii =>
            icmDsetGrps.foldl (fun (acc2 : Option (List (List QN))) dset_grp =>
              let ds_path := joinP3 (mp.replace ("%") (String.singleton ii)) dset_grp dset
              if fid.contains ds_path then
                some (acc2.getD [] ++
                  [fill_with_nan flag (fid.fillAttrAt ds_path) (fid.dataAt ds_path)])
              else acc2) acc)
          (fun dd => ∃ p, fid.contains p = true ∧
            dd = fill_with_nan flag (fid.fillAttrAt p) (fid.dataAt p))
          ?_ bs none (by simp)
        · rw [hok] at main
          exact main d (by simpa using hd)
        · intro acc ii hacc
          refine foldl_optlist_preserve _ _ ?_ icmDsetGrps acc hacc
          intro acc2 g hacc2 dd hdd
          by_cases hc : fid.contains (joinP3 (mp.replace ("%") (String.singleton ii)) g dset) = true
          · simp only [hc, if_true, Option.getD_some] at hdd
            rcases List.mem_append.mp hdd with hmem | hmem
            · exact hacc2 dd hmem
            · rcases List.mem_singleton.mp hmem with rfl
              exact ⟨_, hc, rfl⟩
          · simp only [Bool.not_eq_true] at hc
            simp only [hc, Bool.false_eq_true, if_false] at hdd
            exact hacc2 dd hdd

/-- Witness for C3 at a concrete dataset: the sentinel element becomes NaN
and a non-sentinel element survives; with the flag off nothing changes. -/
theorem fill_value_conversion_witness :
    (fill_with_nan true (some s5pFillValue) [some s5pFillValue, some 1, none])[0]? =
      some none ∧
    (fill_with_nan true (some s5pFillValue) [some s5pFillValue, some 1, none])[1]? =
      some (some 1) ∧
    fill_with_nan false (some s5pFillValue) [some s5pFillValue] = [some s5pFillValue] := by
  refine ⟨?_, ?_, ?_⟩
  · have h := (fill_value_conversion true (some s5pFillValue)
      [some s5pFillValue, some 1, none]).1 ⟨rfl, rfl⟩ 0
    simpa using h
  · have h := (fill_value_conversion true (some s5pFillValue)
      [some s5pFillValue, some 1, none]).1 ⟨rfl, rfl⟩ 1
    rw [h]
    simp only [List.getElem?_cons_succ, List.getElem?_cons_zero, Option.map_some']
    simp [s5pFillValue]
  · exact (fill_value_conversion false (some s5pFillValue) [some s5pFillValue]).2.1
      (Or.inl rfl)

theorem map_scaleQN_one (l : List QN) : l.map (scaleQN 1) = l := by
  induction l with
  | nil => rfl
  | cons x xs ih =>
    cases x with
    | none => simp [scaleQN, ih]
    | some q => simp [scaleQN, ih]

theorem map2_scaleQN_one (a : List (List QN)) : a.map (List.map (scaleQN 1)) = a := by
  induction a with
  | nil => rfl
  | cons r rs ih => simp [map_scaleQN_one, ih]

/-- Claim C7: `__frame` clips the rendered image to `[p10, p90]`, the 10th
and 90th percentiles of the finite input values, both divided by the same
power-of-1000 factor as the data when the `'electron'` rescaling applies
(factor 1 otherwise), and the colorbar is normalized to exactly the same
interval. -/
theorem s5p_frame_percentile_clip (signal : List (List QN)) (col row : List QN)
    (unit : Option (List Char)) :
    ∃ f : ℚ, (f = 1 ∨ f = 1000 ∨ f = 1000000 ∨ f = 1000000000) ∧
      (s5p_frame signal col row unit).vmin = percentile 10 (finiteVals signal.flatten) / f ∧
      (s5p_frame signal col row unit).vmax = percentile 90 (finiteVals signal.flatten) / f ∧
      (s5p_frame signal col row unit).norm_vmin = (s5p_frame signal col row unit).vmin ∧
      (s5p_frame signal col row unit).norm_vmax = (s5p_frame signal col row unit).vmax ∧
      (s5p_frame signal col row unit).signal = signal.map (List.map (scaleQN f)) := by
  cases unit with
  | none =>
    exact ⟨1, Or.inl rfl, by simp [s5p_frame], by simp [s5p_frame],
      by simp [s5p_frame], by simp [s5p_frame], by simp [s5p_frame, map2_scaleQN_one]⟩
  | some u =>
    by_cases hel : containsSub u electronChars
    · by_cases h9 : qmax (qabs (percentile 10 (finiteVals signal.flatten)))
          (qabs (percentile 90 (finiteVals signal.flatten))) > 1000000000
      · exact ⟨1000000000, Or.inr (Or.inr (Or.inr rfl)),
          by simp [s5p_frame, hel, h9], by simp [s5p_frame, hel, h9],
          by simp [s5p_frame, hel, h9], by simp [s5p_frame, hel, h9],
          by simp [s5p_frame, hel, h9]⟩
      · by_cases h6 : qmax (qabs (percentile 10 (finiteVals signal.flatten)))
            (qabs (percentile 90 (finiteVals signal.flatten))) > 1000000
        · exact ⟨1000000, Or.inr (Or.inr (Or.inl rfl)),
            by simp [s5p_frame, hel, h9, h6], by simp [s5p_frame, hel, h9, h6],
            by simp [s5p_frame, hel, h9, h6], by simp [s5p_frame, hel, h9, h6],
            by simp [s5p_frame, hel, h9, h6]⟩
        · by_cases h3 : qmax (qabs (percentile 10 (finiteVals signal.flatten)))
              (qabs (percentile 90 (finiteVals signal.flatten))) > 1000
          · exact ⟨1000, Or.inr (Or.inl rfl),
              by simp [s5p_frame, hel, h9, h6, h3], by simp [s5p_frame, hel, h9, h6, h3],
              by simp [s5p_frame, hel, h9, h6, h3], by simp [s5p_frame, hel, h9, h6, h3],
              by simp [s5p_frame, hel, h9, h6, h3]⟩
          · exact ⟨1, Or.inl rfl,
              by simp [s5p_frame, hel, h9, h6, h3], by simp [s5p_frame, hel, h9, h6, h3],
              by simp [s5p_frame, hel, h9, h6, h3], by simp [s5p_frame, hel, h9, h6, h3],
              by simp [s5p_frame, hel, h9, h6, h3, map2_scaleQN_one]⟩
    · exact ⟨1, Or.inl rfl, by simp [s5p_frame, hel], by simp [s5p_frame, hel],
        by simp [s5p_frame, hel], by simp [s5p_frame, hel],
        by simp [s5p_frame, hel, map2_scaleQN_one]⟩

/-- Claim C9: before any `select`, `__msm_path` is `None`; a `select` whose
result is the empty band string leaves `__msm_path` at `None`; and with
`__msm_path` at `None` each of the six measurement methods returns `None`
(for `set_msm_data`: returns without patching anything) without raising,
whatever the file contents — so no measurement group is consulted. -/
theorem icm_unselected_returns_none (rw flag : Bool) (st : ICMstate) (fid : ICMfid)
    (mt : String) (mp : Option String) (dset : String) (data : List (List QN)) :
    (icm_init rw).msm_path = none ∧
    (∀ st' bs, icm_select st fid mt mp = (st', .ok bs) → bs = [] → st'.msm_path = none) ∧
    (st.msm_path = none →
      icm_get_ref_time st fid = .ok none ∧
      icm_get_delta_time st fid = .ok none ∧
      icm_get_instrument_settings st fid = .ok none ∧
      icm_get_housekeeping_data st fid = .ok none ∧
      icm_get_msm_data st fid dset flag = .ok none ∧
      icm_set_msm_data st fid dset data = .ok []) := by
  refine ⟨rfl, ?_, ?_⟩
  · intro st' bs hsel hbs
    subst hbs
    cases mp with
    | some p =>
      simp only [icm_select] at hsel
      split at hsel
      · exact absurd (congrArg Prod.snd hsel) (by simp)
      · split at hsel
        · simp only [Prod.mk.injEq] at hsel
          rw [← hsel.1]
        · next hne =>
          simp only [Prod.mk.injEq, Except.ok.injEq] at hsel
          apply absurd ?_ hne
          rw [hsel.2]
          rfl
    | none =>
      simp only [icm_select] at hsel
      split at hsel
      · simp only [Prod.mk.injEq] at hsel
        rw [← hsel.1]
      · next hne =>
        split at hsel
        · simp only [Prod.mk.injEq, Except.ok.injEq] at hsel
          apply absurd ?_ hne
          rw [hsel.2]
          rfl
        · exact absurd (congrArg Prod.snd hsel) (by simp)
  · intro hmp
    refine ⟨?_, ?_, ?_, ?_, ?_, ?_⟩
    · simp [icm_get_ref_time, hmp]
    · simp [icm_get_delta_time, hmp]
    · simp [icm_get_instrument_settings, hmp]
    · simp [icm_get_housekeeping_data, hmp]
    · simp [icm_get_msm_data, hmp]
    · simp [icm_set_msm_data, hmp]

/-- Witness for C9: a freshly initialised object against an empty file. -/
theorem icm_unselected_returns_none_witness :
    icm_get_ref_time (icm_init true) emptyICMfid = .ok none ∧
    icm_get_delta_time (icm_init true) emptyICMfid = .ok none ∧
    icm_get_instrument_settings (icm_init true) emptyICMfid = .ok none ∧
    icm_get_housekeeping_data (icm_init true) emptyICMfid = .ok none ∧
    icm_get_msm_data (icm_init true) emptyICMfid ("signal_avg") false = .ok none ∧
    icm_set_msm_data (icm_init true) emptyICMfid ("signal_avg") [] = .ok [] :=
  (icm_unselected_returns_none true false (icm_init true) emptyICMfid ("")
    none ("signal_avg") []).2.2 rfl

theorem maskCols_getElem? (p : ℕ → Bool) :
    ∀ (xs : List ℤ) (k j : ℕ),
      (maskCols p xs k)[j]? = (xs[j]?).map (fun x => if p (k + j) then -1 else x) := by
  intro xs
  induction xs with
  | nil => intro k j; simp [maskCols]
  | cons x t ih =>
    intro k j
    cases j with
    | zero => simp [maskCols]
    | succ m =>
      simp only [maskCols, List.getElem?_cons_succ]
      rw [ih (k + 1) m]
      have harith : k + (m + 1) = k + 1 + m := by omega
      rw [harith]

theorem maskCols_length (p : ℕ → Bool) :
    ∀ (xs : List ℤ) (k : ℕ), (maskCols p xs k).length = xs.length := by
  intro xs
  induction xs with
  | nil => intro k; rfl
  | cons x t ih => intro k; simp [maskCols, ih]

theorem quality_cell (dpqm : List (List ℚ)) (i : ℕ) :
    (s5p_quality_dpqf dpqm)[i]? = (dpqm[i]?).map (fun row =>
      maskCols (unusedRowP dpqm) (maskCols (unusedColP dpqm) (row.map categorize) 0) 0) := by
  simp [s5p_quality_dpqf, List.getElem?_map, Option.map_map]
  rfl

/-- Claim C10: in `__quality`, a row index `r` with row-sum below 250 is
masked by assigning `-1` to *column* `r` of the categorized map (the source
writes `dpqf[:, unused_rows]`), while the cells of row `r` itself keep their
categorized values wherever their column is not itself masked by either
rule. -/
theorem quality_row_mask_hits_columns (dpqm : List (List ℚ)) (C r : ℕ)
    (hshape : ∀ row ∈ dpqm, row.length = C)
    (hr : r < dpqm.length) (hrC : r < C)
    (hsum : (dpqm.getD r []).sum < 250) :
    (∀ i, i < dpqm.length →
      ((s5p_quality_dpqf dpqm)[i]?.bind (fun row => row[r]?)) = some (-1)) ∧
    (∀ j, j < C → unusedColP dpqm j = false → unusedRowP dpqm j = false →
      ((s5p_quality_dpqf dpqm)[r]?.bind (fun row => row[j]?)) =
        some (categorize ((dpqm.getD r []).getD j 0))) := by
  have hrowr : dpqm[r]? = some (dpqm.getD r []) := by
    rw [List.getElem?_eq_getElem hr, getD_of_lt dpqm r [] hr]
  have hp2r : unusedRowP dpqm r = true := by
    unfold unusedRowP
    rw [List.get?_eq_getElem?, hrowr]
    exact decide_eq_true hsum
  constructor
  · intro i hi
    rw [quality_cell dpqm i, List.getElem?_eq_getElem hi]
    have hlen : dpqm[i].length = C := hshape dpqm[i] (List.getElem_mem hi)
    have hrlen : r < (maskCols (unusedColP dpqm) (dpqm[i].map categorize) 0).length := by
      rw [maskCols_length, List.length_map, hlen]
      exact hrC
    simp only [Option.map_some', Option.some_bind]
    rw [maskCols_getElem? (unusedRowP dpqm) _ 0 r]
    rw [List.getElem?_eq_getElem hrlen]
    simp [hp2r]
  · intro j hj hcol hrow
    rw [quality_cell dpqm r, List.getElem?_eq_getElem hr]
    have hlen : dpqm[r].length = C := hshape dpqm[r] (List.getElem_mem hr)
    have hjlen : j < (dpqm[r].map categorize).length := by
      rw [List.length_map, hlen]; exact hj
    simp only [Option.map_some', Option.some_bind]
    rw [maskCols_getElem? (unusedRowP dpqm) _ 0 j, maskCols_getElem? (unusedColP dpqm) _ 0 j]
    rw [List.getElem?_eq_getElem hjlen]
    simp only [Nat.zero_add, hrow, hcol, Bool.false_eq_true, if_false, Option.map_some']
    have hdg : dpqm[r] = dpqm.getD r [] := (getD_of_lt dpqm r [] hr).symm
    rw [List.getElem_map]
    have hjl : j < dpqm[r].length := hlen ▸ hj
    rw [← hdg, getD_of_lt dpqm[r] j 0 hjl]

/-- Witness for C10: on a 2×2 map whose second row sums below 250 (and whose
columns are healthy), both cells of column 1 are masked while the cell
(1, 0) of the low-sum row keeps its categorized value. -/
theorem quality_row_mask_hits_columns_witness :
    ((s5p_quality_dpqf [[100, 200], [5, 6]])[0]?.bind (fun row => row[1]?)) = some (-1) ∧
    ((s5p_quality_dpqf [[100, 200], [5, 6]])[1]?.bind (fun row => row[0]?)) =
      some (categorize ((([[100, 200], [5, 6]] : List (List ℚ)).getD 1 []).getD 0 0)) := by
  have h := quality_row_mask_hits_columns [[100, 200], [5, 6]] 2 1
    (by decide) (by decide) (by decide) (by decide)
  exact ⟨h.1 0 (by decide), h.2 0 (by decide) (by decide) (by decide)⟩

end Pys5pModel
